import Mathlib

/- Formal models of the Autojob MVP sources: the audio codec and PCM decoder
   (services/gemini.ts), the playback scheduler and live session controller
   (components/InterviewSimulator.tsx), the task state store and command
   routing (the application root component), and the command dispatcher.
   Theorems at the end check the specification's claims against these models. -/

namespace Autojob

/-! ## Audio codec (services/gemini.ts: encodeAudio / decodeAudio)

Bytes are modelled as natural numbers below 256.  `encodeAudio` builds a
Latin-1 string from the bytes with `String.fromCharCode` (identity on code
points) and applies the browser builtin `btoa`; `decodeAudio` applies `atob`
and reads the code points back.  We therefore model the pair as standard
base64 over lists of code points: three bytes become four sextets, a final
group of two or one byte becomes three or two sextets plus `=` padding
(code 61), and decoding strips the padding and inverts each group. -/

def b64char (n : Nat) : Nat :=
  if n < 26 then 65 + n
  else if n < 52 then 97 + (n - 26)
  else if n < 62 then 48 + (n - 52)
  else if n = 62 then 43
  else 47

def b64value (c : Nat) : Nat :=
  if 65 ≤ c ∧ c ≤ 90 then c - 65
  else if 97 ≤ c ∧ c ≤ 122 then c - 71
  else if 48 ≤ c ∧ c ≤ 57 then c + 4
  else if c = 43 then 62
  else 63

def b64sextets : List Nat → List Nat
  | a :: b :: c :: rest =>
      a / 4 :: (a % 4 * 16 + b / 16) :: (b % 16 * 4 + c / 64) :: c % 64 :: b64sextets rest
  | [a, b] => [a / 4, a % 4 * 16 + b / 16, b % 16 * 4]
  | [a] => [a / 4, a % 4 * 16]
  | [] => []

def b64pad (len : Nat) : List Nat :=
  if len % 3 = 1 then [61, 61] else if len % 3 = 2 then [61] else []

def encodeAudio (bytes : List Nat) : List Nat :=
  (b64sextets bytes).map b64char ++ b64pad bytes.length

def b64unsextets : List Nat → List Nat
  | w :: x :: y :: z :: rest =>
      (w * 4 + x / 16) :: (x % 16 * 16 + y / 4) :: (y % 4 * 64 + z) :: b64unsextets rest
  | [w, x, y] => [w * 4 + x / 16, x % 16 * 16 + y / 4]
  | [w, x] => [w * 4 + x / 16]
  | _ => []

def decodeAudio (chars : List Nat) : List Nat :=
  b64unsextets ((chars.filter (fun c => c ≠ 61)).map b64value)


/-! ## PCM16 decoder (services/gemini.ts: decodeAudioData)

The source builds `new Int16Array(data.buffer)` (which throws a RangeError
when the byte length is odd), computes `frameCount = dataInt16.length /
numChannels`, allocates a buffer (the Web Audio `createBuffer` truncates a
fractional frame count to an integer), and de-interleaves channel-major
samples dividing by 32768.  The copy loop's out-of-range typed-array writes
are silent no-ops and do not affect the resulting buffer, so the model
fills exactly `frameCount` frames per channel. -/

def toInt16 (lo hi : Nat) : Int :=
  let u := lo + 256 * hi
  if u < 32768 then (u : Int) else (u : Int) - 65536

def bytesToInt16 : List Nat → List Int
  | lo :: hi :: rest => toInt16 lo hi :: bytesToInt16 rest
  | _ => []

structure AudioBufferModel where
  numChannels : Nat
  sampleRate : Nat
  frameCount : Nat
  channelData : List (List ℚ)
  deriving Repr, DecidableEq

def decodeAudioData (data : List Nat) (sampleRate numChannels : Nat) :
    Except String AudioBufferModel :=
  if data.length % 2 ≠ 0 then
    Except.error "RangeError: byte length of Int16Array should be a multiple of 2"
  else
    let dataInt16 := bytesToInt16 data
    let frameCount := dataInt16.length / numChannels
    Except.ok
      { numChannels := numChannels
        sampleRate := sampleRate
        frameCount := frameCount
        channelData :=
          (List.range numChannels).map fun channel =>
            (List.range frameCount).map fun i =>
              ((dataInt16.getD (i * numChannels + channel) 0 : ℚ)) / 32768 }


/-! ## Playback scheduler (components/InterviewSimulator.tsx, onmessage)

The audio branch of the `onmessage` callback keeps `nextStartTimeRef` and a
set of scheduled `AudioBufferSourceNode`s.  On each arriving chunk it clamps
`nextStartTime` to the output clock, starts the decoded buffer at the
clamped time, advances `nextStartTime` by the buffer duration and registers
the source.  Times and durations are modelled as rationals; an arrival is a
pair of the output-clock reading when the chunk is handled and the decoded
buffer's duration. -/

structure PlaybackSource where
  start : ℚ
  duration : ℚ
  deriving Repr, DecidableEq

structure SchedState where
  nextStartTime : ℚ
  sources : List PlaybackSource
  deriving Repr, DecidableEq

def initSched : SchedState := { nextStartTime := 0, sources := [] }

def enqueue (s : SchedState) (now dur : ℚ) : SchedState :=
  let ns := max s.nextStartTime now
  { nextStartTime := ns + dur
    sources := s.sources ++ [{ start := ns, duration := dur }] }

def schedule (s : SchedState) : List (ℚ × ℚ) → SchedState
  | [] => s
  | (now, dur) :: rest => schedule (enqueue s now dur) rest

/-- Model of the `interrupted` branch of `onmessage`: `stop()` is invoked on
every member of the active set, the set is cleared and `nextStartTimeRef` is
reset to 0.  The first component records the sources that were stopped. -/
def interrupt (s : SchedState) : List PlaybackSource × SchedState :=
  (s.sources, { nextStartTime := 0, sources := [] })

/-- Duration of the first `k` arrivals, i.e. the sum d1 + ... + dk. -/
def durBefore (arrivals : List (ℚ × ℚ)) (k : Nat) : ℚ :=
  ((arrivals.take k).map Prod.snd).sum


/-! ## Live session controller (components/InterviewSimulator.tsx)

The component state is `status` (Idle, Connecting, Live, Error) and
`isActive`, plus the session handle (here `connectionOpen`) and the
microphone `MediaStream` obtained from `getUserMedia` (here
`micCaptureActive`: true from the moment the stream is acquired until its
tracks are stopped — which no code in the component ever does).
`startSession` first sets status to Connecting, then awaits `getUserMedia`;
no try/catch surrounds the await, so when acquisition rejects, the async
function aborts with an unhandled rejection and the state keeps its last
written values.  On success the stream is captured and the connection is
requested; the `onopen` callback sets Live/active, `onerror` sets Error,
`onclose` sets Idle/inactive.  `stopSession` closes the session handle and
sets inactive/Idle; it touches nothing else. -/

inductive SessionStatus
  | Idle
  | Connecting
  | Live
  | Error
  deriving Repr, DecidableEq

structure SessionModel where
  status : SessionStatus
  isActive : Bool
  connectionOpen : Bool
  micCaptureActive : Bool
  deriving Repr, DecidableEq

def initSession : SessionModel :=
  { status := .Idle, isActive := false, connectionOpen := false, micCaptureActive := false }

def startSession (s : SessionModel) (micOk : Bool) : SessionModel :=
  if micOk then { s with status := .Connecting, micCaptureActive := true }
  else { s with status := .Connecting }

def onOpen (s : SessionModel) : SessionModel :=
  { s with status := .Live, isActive := true, connectionOpen := true }

def onSessionError (s : SessionModel) : SessionModel :=
  { s with status := .Error }

def onSessionClose (s : SessionModel) : SessionModel :=
  { s with status := .Idle, isActive := false }

def stopSession (s : SessionModel) : SessionModel :=
  { s with connectionOpen := false, isActive := false, status := .Idle }

/-! ## Task state store and drivers (application root component)

`state.tasks` holds one record per task id (`roadmap` and `discovery`,
created at init with status idle).  `updateTask` spreads the update over the
existing record inside a copy of the task map, so present fields override
and absent fields persist.  `runRoadmapGeneration` guards on a loaded
profile and on `status === 'running'`, marks the task running at progress 5,
lets a 2-second interval walk through five simulated progress steps while
the remote call is pending (`ticks` counts how many fired before it
settled), and on settlement either replaces the whole record with the
completed state or merge-updates status/message/error.
`handleGlobalCommand` routes an interpreted command; its `search_jobs`
branch drives the `discovery` task with no running guard, and its
try/catch only writes the UI error banner. -/

inductive TaskStatus
  | idle
  | running
  | completed
  | error
  deriving Repr, DecidableEq

structure TaskState where
  id : String
  status : TaskStatus
  progress : Nat
  message : String
  error : Option String := none
  deriving Repr, DecidableEq

structure TaskUpdate where
  status : Option TaskStatus := none
  progress : Option Nat := none
  message : Option String := none
  error : Option String := none
  deriving Repr, DecidableEq

def mergeTask (t : TaskState) (u : TaskUpdate) : TaskState :=
  { id := t.id
    status := u.status.getD t.status
    progress := u.progress.getD t.progress
    message := u.message.getD t.message
    error := match u.error with
      | some e => some e
      | none => t.error }

inductive TaskId
  | roadmap
  | discovery
  deriving Repr, DecidableEq

structure Tasks where
  roadmap : TaskState
  discovery : TaskState
  deriving Repr, DecidableEq

def Tasks.get (ts : Tasks) : TaskId → TaskState
  | .roadmap => ts.roadmap
  | .discovery => ts.discovery

def updateTask (ts : Tasks) (id : TaskId) (u : TaskUpdate) : Tasks :=
  match id with
  | .roadmap => { ts with roadmap := mergeTask ts.roadmap u }
  | .discovery => { ts with discovery := mergeTask ts.discovery u }

def initTasks : Tasks :=
  { roadmap := { id := "roadmap", status := .idle, progress := 0, message := "" }
    discovery := { id := "discovery", status := .idle, progress := 0, message := "" } }

structure AppModel where
  profileLoaded : Bool
  resumeTrackCount : Nat
  activeTab : String
  tasks : Tasks
  discoveredJobs : List String
  roadmap : Option String
  errorBanner : Option String
  isCommandProcessing : Bool
  resumeImproved : Bool
  deriving Repr, DecidableEq

def roadmapSteps : List (Nat × String) :=
  [(15, "Fetching Market Benchmarks..."),
   (30, "Identifying Skill Gaps..."),
   (50, "Synthesizing Strategic Roadmap..."),
   (75, "Optimizing Evolution Timeline..."),
   (90, "Finalizing Deployment Kit...")]

def applyTicks (ts : Tasks) (ticks : Nat) : Tasks :=
  (roadmapSteps.take ticks).foldl
    (fun acc step =>
      updateTask acc .roadmap { progress := some step.1, message := some step.2 })
    ts

def runRoadmapGeneration (m : AppModel) (ticks : Nat)
    (outcome : Except String String) : AppModel :=
  if m.profileLoaded = false ∨ (m.tasks.get .roadmap).status = .running then m
  else
    let started := updateTask m.tasks .roadmap
      { status := some .running, progress := some 5,
        message := some "Initiating Neural Scan..." }
    let ticked := applyTicks started ticks
    match outcome with
    | .ok roadmap =>
        { m with
          roadmap := some roadmap
          tasks := { ticked with roadmap :=
            { id := "roadmap", status := .completed, progress := 100,
              message := "Strategy Ready", error := none } } }
    | .error msg =>
        let u : TaskUpdate :=
          { status := some .error,
            message := some "Roadmap Generation Failed", error := some msg }
        { m with tasks := updateTask ticked .roadmap u }

/-! ## Command routing (application root component, handleGlobalCommand)
and command dispatcher (interpretCommand) -/

structure CommandParams where
  improvement_prompt : Option String := none
  target_tab : Option String := none
  query : Option String := none
  deriving Repr, DecidableEq

structure CommandResult where
  action : String
  goal : Option String := none
  reason : Option String := none
  params : Option CommandParams := none
  deriving Repr, DecidableEq

/-- Truthiness of a JavaScript optional string: absent and the empty string
are both falsy. -/
def orFalsy (a : Option String) (b : String) : String :=
  match a with
  | some s => if s = "" then b else s
  | none => b

def handleGlobalCommand (m : AppModel) (cmd : CommandResult)
    (roadmapTicks : Nat) (roadmapOutcome : Except String String)
    (searchOutcome : Except String (List String))
    (improveOutcome : Except String String) : AppModel :=
  if cmd.action = "blocked" ∨ m.profileLoaded = false then m
  else
    let m1 := { m with isCommandProcessing := true }
    let m2 :=
      if cmd.action = "switch_tab" then
        match cmd.params.bind (·.target_tab) with
        | some tab => if tab = "" then m1 else { m1 with activeTab := tab }
        | none => m1
      else if cmd.action = "start_interview" then
        { m1 with activeTab := "interview" }
      else if cmd.action = "strategy" then
        runRoadmapGeneration { m1 with activeTab := "roadmap" }
          roadmapTicks roadmapOutcome
      else if cmd.action = "search_jobs" then
        let query := orFalsy (cmd.params.bind (·.query)) (orFalsy cmd.goal "")
        if query = "" then m1
        else
          let uRun : TaskUpdate :=
            { status := some .running, progress := some 10,
              message := some ("Searching for " ++ query ++ "...") }
          let ms := { m1 with tasks := updateTask m1.tasks .discovery uRun }
          match searchOutcome with
          | .ok jobs =>
              let uDone : TaskUpdate :=
                { status := some .completed, progress := some 100,
                  message := some "Discovery Complete" }
              { ms with
                discoveredJobs := jobs
                tasks := updateTask ms.tasks .discovery uDone
                activeTab := "discover" }
          | .error msg =>
              { ms with errorBanner := some ("Agent command failed: " ++ msg) }
      else if cmd.action = "improve_resume" then
        match cmd.params.bind (·.improvement_prompt) with
        | some p =>
            if p ≠ "" ∧ 0 < m1.resumeTrackCount then
              match improveOutcome with
              | .ok _ => { m1 with resumeImproved := true, activeTab := "resume_lab" }
              | .error msg =>
                  { m1 with errorBanner := some ("Agent command failed: " ++ msg) }
            else m1
        | none => m1
      else m1
    { m2 with isCommandProcessing := false }

/-- Outcome of the remote generateContent call as seen by interpretCommand:
either the call (or client construction) threw, or it resolved with
`response.text`, where `none` stands for an absent or empty text (both are
falsy in the sources). -/
inductive RemoteOutcome
  | failure
  | success (text : Option String)
  deriving Repr, DecidableEq

namespace GeminiTs

/-- Model of interpretCommand in services/gemini.ts.  `parse` abstracts
`JSON.parse` on the response text, returning `none` when parsing throws; a
parse failure is caught by the same try/catch as a remote failure.  An
absent/empty text makes the source parse the literal fallback
`\x7b"action":"blocked"\x7d`, which yields a blocked result with no reason. -/
def interpretCommand (parse : String → Option CommandResult)
    (outcome : RemoteOutcome) : CommandResult :=
  match outcome with
  | .failure =>
      { action := "blocked", reason := some "Failed to connect to Command Center." }
  | .success none => { action := "blocked" }
  | .success (some txt) =>
      match parse txt with
      | some r => r
      | none =>
          { action := "blocked", reason := some "Failed to connect to Command Center." }

end GeminiTs

namespace Part005

/-- Model of safeParseJson: an absent/empty text or a failed parse yields
the fallback.  `parse` abstracts `JSON.parse` composed with the markdown
code-fence stripping. -/
def safeParseJson (parse : String → Option CommandResult)
    (text : Option String) (fallback : CommandResult) : CommandResult :=
  match text with
  | none => fallback
  | some t => (parse t).getD fallback

/-- Model of interpretCommand in the service module src/unnamed/part_005:
every failure path, caught exception or parse fallback alike, yields a bare
blocked result with no reason field. -/
def interpretCommand (parse : String → Option CommandResult)
    (outcome : RemoteOutcome) : CommandResult :=
  match outcome with
  | .failure => { action := "blocked" }
  | .success txt => safeParseJson parse txt { action := "blocked" }

end Part005


/-! ## Sample states used by concrete evaluations -/

def profileApp : AppModel :=
  { profileLoaded := true, resumeTrackCount := 1, activeTab := "discover",
    tasks := initTasks, discoveredJobs := [], roadmap := none,
    errorBanner := none, isCommandProcessing := false, resumeImproved := false }

def busyDiscoveryApp : AppModel :=
  { profileApp with tasks := { initTasks with discovery :=
      { id := "discovery", status := .running, progress := 50,
        message := "Searching for rust...", error := none } } }

def busyRoadmapApp : AppModel :=
  { profileApp with tasks := { initTasks with roadmap :=
      { id := "roadmap", status := .running, progress := 30,
        message := "Identifying Skill Gaps...", error := none } } }

/-! ## Helper lemmas -/

theorem b64value_b64char : ∀ n < 64, b64value (b64char n) = n := by decide

theorem b64char_ne_pad : ∀ n < 64, b64char n ≠ 61 := by decide

theorem b64sextets_lt (bs : List Nat) (h : ∀ b ∈ bs, b < 256) :
    ∀ s ∈ b64sextets bs, s < 64 := by
  induction bs using b64sextets.induct with
  | case1 a b c rest ih =>
      have ha := h a (by simp)
      have hb := h b (by simp)
      have hc := h c (by simp)
      intro s hs
      simp only [b64sextets, List.mem_cons] at hs
      rcases hs with rfl | rfl | rfl | rfl | hs
      · omega
      · omega
      · omega
      · omega
      · exact ih (fun x hx => h x (by simp [hx])) s hs
  | case2 a b =>
      have ha := h a (by simp)
      have hb := h b (by simp)
      intro s hs
      simp only [b64sextets, List.mem_cons, List.not_mem_nil, or_false] at hs
      rcases hs with rfl | rfl | rfl
      · omega
      · omega
      · omega
  | case3 a =>
      have ha := h a (by simp)
      intro s hs
      simp only [b64sextets, List.mem_cons, List.not_mem_nil, or_false] at hs
      rcases hs with rfl | rfl
      · omega
      · omega
  | case4 =>
      intro s hs
      simp [b64sextets] at hs

theorem b64unsextets_b64sextets (bs : List Nat) (h : ∀ b ∈ bs, b < 256) :
    b64unsextets (b64sextets bs) = bs := by
  induction bs using b64sextets.induct with
  | case1 a b c rest ih =>
      have ha := h a (by simp)
      have hb := h b (by simp)
      have hc := h c (by simp)
      simp only [b64sextets, b64unsextets, List.cons.injEq]
      refine ⟨by omega, by omega, by omega, ih (fun x hx => h x (by simp [hx]))⟩
  | case2 a b =>
      have ha := h a (by simp)
      have hb := h b (by simp)
      simp only [b64sextets, b64unsextets, List.cons.injEq, and_true]
      exact ⟨by omega, by omega⟩
  | case3 a =>
      have ha := h a (by simp)
      simp only [b64sextets, b64unsextets, List.cons.injEq, and_true]
      omega
  | case4 =>
      simp [b64sextets, b64unsextets]

theorem b64_roundtrip (bs : List Nat) (h : ∀ b ∈ bs, b < 256) :
    decodeAudio (encodeAudio bs) = bs := by
  have hlt := b64sextets_lt bs h
  unfold decodeAudio encodeAudio
  rw [List.filter_append]
  have hpad : (b64pad bs.length).filter (fun c => c ≠ 61) = [] := by
    unfold b64pad
    split <;> simp
  have hchars : ((b64sextets bs).map b64char).filter (fun c => c ≠ 61)
      = (b64sextets bs).map b64char := by
    apply List.filter_eq_self.mpr
    intro c hc
    rcases List.mem_map.mp hc with ⟨s, hs, rfl⟩
    simpa using b64char_ne_pad s (hlt s hs)
  rw [hpad, hchars, List.append_nil, List.map_map]
  have hmap : (b64sextets bs).map (b64value ∘ b64char) = b64sextets bs := by
    have := List.map_congr_left (l := b64sextets bs)
      (f := b64value ∘ b64char) (g := id)
      (fun s hs => b64value_b64char s (hlt s hs))
    rw [this, List.map_id]
  rw [hmap]
  exact b64unsextets_b64sextets bs h

theorem bytesToInt16_length (data : List Nat) :
    (bytesToInt16 data).length = data.length / 2 := by
  induction data using bytesToInt16.induct with
  | case1 lo hi rest ih => simp [bytesToInt16, ih]; omega
  | case2 l h => cases l with
      | nil => simp [bytesToInt16]
      | cons a t =>
          cases t with
          | nil => simp [bytesToInt16]
          | cons b t2 => exact absurd rfl (h a b t2)

theorem durBefore_cons (t d : ℚ) (rest : List (ℚ × ℚ)) (k : Nat) :
    durBefore ((t, d) :: rest) (k + 1) = d + durBefore rest k := by
  simp [durBefore, List.take_succ_cons]

theorem schedule_sources (arrivals : List (ℚ × ℚ)) (s : SchedState)
    (hb : ∀ k (hk : k < arrivals.length),
      (arrivals.get ⟨k, hk⟩).1 ≤ s.nextStartTime + durBefore arrivals k) :
    (schedule s arrivals).sources = s.sources
      ++ (List.range arrivals.length).map fun k =>
        { start := s.nextStartTime + durBefore arrivals k
          duration := (arrivals.getD k (0, 0)).2 } := by
  induction arrivals generalizing s with
  | nil => simp [schedule]
  | cons hd rest ih =>
      obtain ⟨t, d⟩ := hd
      have ht : t ≤ s.nextStartTime := by
        have := hb 0 (by simp)
        simpa [durBefore] using this
      have hmax : max s.nextStartTime t = s.nextStartTime := max_eq_left ht
      have hrest : ∀ k (hk : k < rest.length),
          (rest.get ⟨k, hk⟩).1
            = ((((t, d) :: rest).get ⟨k + 1, by simpa using Nat.succ_lt_succ hk⟩)).1 := by
        intro k hk; rfl
      have hb2 : ∀ k (hk : k < rest.length),
          (rest.get ⟨k, hk⟩).1 ≤ (enqueue s t d).nextStartTime + durBefore rest k := by
        intro k hk
        have := hb (k + 1) (by simpa using Nat.succ_lt_succ hk)
        rw [durBefore_cons] at this
        simpa [enqueue, hmax, add_assoc] using this
      have := ih (enqueue s t d) hb2
      rw [schedule, this]
      simp only [enqueue, hmax, List.length_cons, List.range_succ_eq_map,
        List.map_cons, List.map_map, List.append_assoc, List.cons_append,
        List.nil_append, List.singleton_append]
      have hhead : ({ start := s.nextStartTime, duration := d } : PlaybackSource)
          = { start := s.nextStartTime + durBefore ((t, d) :: rest) 0,
              duration := (((t, d) :: rest).getD 0 (0, 0)).2 } := by
        simp [durBefore]
      have htail :
          List.map (fun k =>
            ({ start := s.nextStartTime + d + durBefore rest k,
               duration := (rest.getD k (0, 0)).2 } : PlaybackSource))
            (List.range rest.length)
          = List.map ((fun k =>
              ({ start := s.nextStartTime + durBefore ((t, d) :: rest) k,
                 duration := (((t, d) :: rest).getD k (0, 0)).2 } : PlaybackSource))
              ∘ Nat.succ) (List.range rest.length) := by
        apply List.map_congr_left
        intro k _
        simp only [Function.comp_apply, Nat.succ_eq_add_one, durBefore_cons,
          PlaybackSource.mk.injEq, List.getD_cons_succ]
        exact ⟨by ring, trivial⟩
      rw [hhead, htail]

theorem durBefore_succ (l : List (ℚ × ℚ)) (k : Nat) (hk : k < l.length) :
    durBefore l (k + 1) = durBefore l k + (l.getD k (0, 0)).2 := by
  unfold durBefore
  rw [List.take_succ]
  have h : l[k]? = some (l.getD k (0, 0)) := by
    rw [List.getElem?_eq_getElem hk, List.getD_eq_getElem l (0, 0) hk]
  rw [h]
  simp

theorem applyTicks_progress (ts : Tasks) (ticks : Nat)
    (h5 : (ts.get .roadmap).progress = 5) :
    ((applyTicks ts ticks).get .roadmap).progress
      = [5, 15, 30, 50, 75, 90].getD (min ticks 5) 0 := by
  rcases ticks with _ | _ | _ | _ | _ | t
  · simpa [applyTicks, roadmapSteps] using h5
  · simp [applyTicks, roadmapSteps, updateTask, Tasks.get, mergeTask]
  · simp [applyTicks, roadmapSteps, updateTask, Tasks.get, mergeTask]
  · simp [applyTicks, roadmapSteps, updateTask, Tasks.get, mergeTask]
  · simp [applyTicks, roadmapSteps, updateTask, Tasks.get, mergeTask]
  · have htake : roadmapSteps.take (t + 5) = roadmapSteps := by
      apply List.take_of_length_le
      simp [roadmapSteps]
    have hmin : min (t + 5) 5 = 5 := by omega
    rw [hmin]
    simp [applyTicks, htake, roadmapSteps, updateTask, Tasks.get, mergeTask]

theorem handleGlobalCommand_searchJobs_failure (m : AppModel) (query msg : String)
    (hp : m.profileLoaded = true) (hq : query ≠ "") :
    ((handleGlobalCommand m { action := "search_jobs", goal := some query }
        0 (Except.ok "") (Except.error msg) (Except.ok "")).tasks.get .discovery).status
      = .running
    ∧ ((handleGlobalCommand m { action := "search_jobs", goal := some query }
        0 (Except.ok "") (Except.error msg) (Except.ok "")).tasks.get .discovery).error
      = (m.tasks.get .discovery).error
    ∧ (handleGlobalCommand m { action := "search_jobs", goal := some query }
        0 (Except.ok "") (Except.error msg) (Except.ok "")).errorBanner
      = some ("Agent command failed: " ++ msg) := by
  unfold handleGlobalCommand
  simp [hp, orFalsy, hq, updateTask, Tasks.get, mergeTask]

theorem decodeAudioData_even_eq (data : List Nat) (rate ch : Nat)
    (h2 : data.length % 2 = 0) :
    decodeAudioData data rate ch = Except.ok
      { numChannels := ch, sampleRate := rate,
        frameCount := data.length / 2 / ch,
        channelData := (List.range ch).map fun channel =>
          (List.range (data.length / 2 / ch)).map fun i =>
            (((bytesToInt16 data).getD (i * ch + channel) 0 : ℚ)) / 32768 } := by
  unfold decodeAudioData
  rw [if_neg (by omega)]
  simp only [bytesToInt16_length]

/-! ## Claim theorems -/

/-- C1: for every sequence of audio buffers enqueued back-to-back (each
arrival is handled no later than the scheduled end of the audio before it)
with no interrupt in between, the scheduler starts buffer k exactly at the
initial clock offset t0 (the output-clock reading at the first arrival)
plus the sum of the durations of buffers 1..k-1, in FIFO arrival order; and
consecutive start times differ by exactly the previous duration, so
playback is zero-gap and zero-overlap. -/
theorem gapless_playback_law (arrivals : List (ℚ × ℚ)) (t0 : ℚ)
    (hne : arrivals ≠ [])
    (hhead : (arrivals.head hne).1 = t0)
    (ht0 : 0 ≤ t0)
    (hb : ∀ k (hk : k < arrivals.length),
      (arrivals.get ⟨k, hk⟩).1 ≤ t0 + durBefore arrivals k) :
    (schedule initSched arrivals).sources
      = (List.range arrivals.length).map (fun k =>
          { start := t0 + durBefore arrivals k
            duration := (arrivals.getD k (0, 0)).2 })
    ∧ (∀ k, k < arrivals.length →
        t0 + durBefore arrivals (k + 1)
          = (t0 + durBefore arrivals k) + (arrivals.getD k (0, 0)).2) := by
  constructor
  · rcases arrivals with _ | ⟨⟨t, d⟩, rest⟩
    · exact absurd rfl hne
    · have ht : t = t0 := hhead
      subst ht
      show (schedule (enqueue initSched t d) rest).sources = _
      have hmax : max (0 : ℚ) t = t := max_eq_right ht0
      have hnext : (enqueue initSched t d).nextStartTime = t + d := by
        simp [enqueue, initSched, hmax]
      have hb2 : ∀ k (hk : k < rest.length),
          (rest.get ⟨k, hk⟩).1 ≤ (enqueue initSched t d).nextStartTime + durBefore rest k := by
        intro k hk
        have h := hb (k + 1) (by simpa using Nat.succ_lt_succ hk)
        rw [durBefore_cons] at h
        have h2 : (rest.get ⟨k, hk⟩).1 ≤ t + (d + durBefore rest k) := h
        rw [hnext]
        linarith
      have hs := schedule_sources rest (enqueue initSched t d) hb2
      rw [hs, hnext]
      have hsrc : (enqueue initSched t d).sources = [{ start := t, duration := d }] := by
        simp [enqueue, initSched, hmax]
      rw [hsrc]
      simp only [List.length_cons, List.range_succ_eq_map, List.map_cons,
        List.map_map, List.singleton_append]
      have hhead2 : ({ start := t, duration := d } : PlaybackSource)
          = { start := t + durBefore ((t, d) :: rest) 0,
              duration := (((t, d) :: rest).getD 0 (0, 0)).2 } := by
        simp [durBefore]
      have htail :
          List.map (fun k =>
            ({ start := t + d + durBefore rest k,
               duration := (rest.getD k (0, 0)).2 } : PlaybackSource))
            (List.range rest.length)
          = List.map ((fun k =>
              ({ start := t + durBefore ((t, d) :: rest) k,
                 duration := (((t, d) :: rest).getD k (0, 0)).2 } : PlaybackSource))
              ∘ Nat.succ) (List.range rest.length) := by
        apply List.map_congr_left
        intro k _
        simp only [Function.comp_apply, Nat.succ_eq_add_one, durBefore_cons,
          PlaybackSource.mk.injEq, List.getD_cons_succ]
        exact ⟨by ring, trivial⟩
      rw [hhead2, htail]
  · intro k hk
    rw [durBefore_succ arrivals k hk]
    ring

theorem gapless_playback_law_witness :
    ([((1 : ℚ), (2 : ℚ)), (2, 3), (4, 1)] ≠ ([] : List (ℚ × ℚ)))
    ∧ (schedule initSched [((1 : ℚ), (2 : ℚ)), (2, 3), (4, 1)]).sources
        = (List.range 3).map (fun k =>
            { start := 1 + durBefore [((1 : ℚ), (2 : ℚ)), (2, 3), (4, 1)] k
              duration := ([((1 : ℚ), (2 : ℚ)), (2, 3), (4, 1)].getD k (0, 0)).2 }) :=
  ⟨by simp,
   (gapless_playback_law [((1 : ℚ), (2 : ℚ)), (2, 3), (4, 1)] 1 (by simp) rfl
      (by norm_num)
      (by
        intro k hk
        rcases k with _ | _ | _ | k
        · show (1 : ℚ) ≤ 1 + durBefore [((1 : ℚ), (2 : ℚ)), (2, 3), (4, 1)] 0
          norm_num [durBefore]
        · show (2 : ℚ) ≤ 1 + durBefore [((1 : ℚ), (2 : ℚ)), (2, 3), (4, 1)] 1
          norm_num [durBefore]
        · show (4 : ℚ) ≤ 1 + durBefore [((1 : ℚ), (2 : ℚ)), (2, 3), (4, 1)] 2
          norm_num [durBefore]
        · norm_num at hk
          omega)).1⟩

/-- C2: after any sequence of enqueues from any scheduler state, the
interrupted branch stops exactly the sources in the active set, leaves the
active set empty, and resets nextStartTime to zero. -/
theorem interrupt_postcondition (s0 : SchedState) (arrivals : List (ℚ × ℚ)) :
    (interrupt (schedule s0 arrivals)).1 = (schedule s0 arrivals).sources
    ∧ (interrupt (schedule s0 arrivals)).2.sources = []
    ∧ (interrupt (schedule s0 arrivals)).2.nextStartTime = 0 :=
  ⟨rfl, rfl, rfl⟩

/-- C3: for every byte array (entries below 256), decoding the base64
encoding returns exactly the original bytes: decodeAudio is the exact
inverse of encodeAudio over arbitrary binary PCM data. -/
theorem decodeAudio_encodeAudio (bytes : List Nat) (hbytes : ∀ b ∈ bytes, b < 256) :
    decodeAudio (encodeAudio bytes) = bytes :=
  b64_roundtrip bytes hbytes

theorem decodeAudio_encodeAudio_witness :
    (∀ b ∈ [0, 1, 127, 255], b < 256)
    ∧ decodeAudio (encodeAudio [0, 1, 127, 255]) = [0, 1, 127, 255] :=
  ⟨by decide, decodeAudio_encodeAudio [0, 1, 127, 255] (by decide)⟩

/-- C4 (code bug in the claim's subject): stopping the session from the
live state closes the connection, deactivates and transitions to Idle, and
a second stop changes nothing; but the microphone capture stays active —
stopSession never stops the MediaStream tracks nor closes the audio
contexts, so the capture resource is not released on this exit path. -/
theorem stopSession_keeps_mic_capture :
    stopSession (onOpen (startSession initSession true))
      = { status := .Idle, isActive := false, connectionOpen := false,
          micCaptureActive := true }
    ∧ stopSession (stopSession (onOpen (startSession initSession true)))
      = stopSession (onOpen (startSession initSession true)) :=
  ⟨rfl, rfl⟩

/-- C5 (code bug in the claim's subject): when getUserMedia rejects during
startSession there is no catch; the run aborts after the Connecting write,
so the session stays in Connecting, never transitions to Error, and
acquires no capture resource. -/
theorem startSession_mic_failure_stays_connecting :
    startSession initSession false
      = { status := .Connecting, isActive := false, connectionOpen := false,
          micCaptureActive := false }
    ∧ (startSession initSession false).status ≠ .Error :=
  ⟨rfl, by decide⟩

/-- C6 (counterexample): invoking the discovery task's driver (the
search_jobs branch of handleGlobalCommand) while the discovery task's
status is running is not a no-op: the task record is rewritten (progress 50
becomes 100 here), because that call site has no running guard. -/
theorem searchJobs_while_running_alters_state :
    (busyDiscoveryApp.tasks.get .discovery).status = .running
    ∧ (busyDiscoveryApp.tasks.get .discovery).progress = 50
    ∧ ((handleGlobalCommand busyDiscoveryApp
          { action := "search_jobs", goal := some "rust" }
          0 (Except.ok "") (Except.ok []) (Except.ok "")).tasks.get .discovery).progress
        = 100 :=
  ⟨rfl, rfl, rfl⟩

/-- C6 (amended): only the roadmap driver has the running guard: invoking
runRoadmapGeneration while the roadmap task's status is running is a no-op
that leaves the whole application state unchanged; the discovery driver in
handleGlobalCommand has no such guard. -/
theorem runRoadmapGeneration_running_guard (m : AppModel) (ticks : Nat)
    (outcome : Except String String)
    (h : (m.tasks.get .roadmap).status = .running) :
    runRoadmapGeneration m ticks outcome = m := by
  unfold runRoadmapGeneration
  rw [if_pos (Or.inr h)]

theorem runRoadmapGeneration_running_guard_witness :
    (busyRoadmapApp.tasks.get .roadmap).status = .running
    ∧ runRoadmapGeneration busyRoadmapApp 3 (Except.ok "plan") = busyRoadmapApp :=
  ⟨rfl, runRoadmapGeneration_running_guard busyRoadmapApp 3 (Except.ok "plan") rfl⟩

/-- C7: updateTask merges the given fields into the named task's record:
every field present in the update overwrites the old value, every field
absent from the update keeps its previous value, the record's id is
preserved, and the records of all other task ids are unchanged. -/
theorem updateTask_merge_frame (ts : Tasks) (id : TaskId) (u : TaskUpdate) :
    (∀ v, u.status = some v → ((updateTask ts id u).get id).status = v)
    ∧ (u.status = none → ((updateTask ts id u).get id).status = (ts.get id).status)
    ∧ (∀ v, u.progress = some v → ((updateTask ts id u).get id).progress = v)
    ∧ (u.progress = none → ((updateTask ts id u).get id).progress = (ts.get id).progress)
    ∧ (∀ v, u.message = some v → ((updateTask ts id u).get id).message = v)
    ∧ (u.message = none → ((updateTask ts id u).get id).message = (ts.get id).message)
    ∧ (∀ v, u.error = some v → ((updateTask ts id u).get id).error = some v)
    ∧ (u.error = none → ((updateTask ts id u).get id).error = (ts.get id).error)
    ∧ ((updateTask ts id u).get id).id = (ts.get id).id
    ∧ (∀ j, j ≠ id → (updateTask ts id u).get j = ts.get j) := by
  have hframe : ∀ j, j ≠ id → (updateTask ts id u).get j = ts.get j := by
    intro j hj
    cases id <;> cases j <;> simp_all [updateTask, Tasks.get, mergeTask]
  cases id <;>
    refine ⟨?_, ?_, ?_, ?_, ?_, ?_, ?_, ?_, ?_, hframe⟩ <;>
    first
      | (intro v hv
         simp [updateTask, Tasks.get, mergeTask, hv])
      | (intro hv
         simp [updateTask, Tasks.get, mergeTask, hv])
      | (simp [updateTask, Tasks.get, mergeTask])

theorem updateTask_merge_frame_witness :
    ((updateTask initTasks .roadmap ({ progress := some 42 })).get .roadmap).progress = 42
    ∧ ((updateTask initTasks .roadmap ({ progress := some 42 })).get .roadmap).message
        = (initTasks.get .roadmap).message
    ∧ (updateTask initTasks .roadmap ({ progress := some 42 })).get .discovery
        = initTasks.get .discovery := by
  obtain ⟨_, _, h3, _, _, h6, _, _, _, h10⟩ :=
    updateTask_merge_frame initTasks .roadmap ({ progress := some 42 })
  exact ⟨h3 42 rfl, h6 rfl, h10 .discovery (by decide)⟩

/-- C8 (counterexample): when the discovery driver's awaited remote call
throws, the owning task does not transition to error: it stays at
status=running with no error field written, because the catch in
handleGlobalCommand only writes the UI error banner. -/
theorem discovery_driver_failure_no_error_state :
    ((handleGlobalCommand profileApp { action := "search_jobs", goal := some "go" }
        0 (Except.ok "") (Except.error "Network failure") (Except.ok "")).tasks.get
        .discovery).status = .running
    ∧ ((handleGlobalCommand profileApp { action := "search_jobs", goal := some "go" }
        0 (Except.ok "") (Except.error "Network failure") (Except.ok "")).tasks.get
        .discovery).error = none :=
  ⟨rfl, rfl⟩

/-- C8 (amended): when the roadmap driver's awaited remote invocation
throws, the roadmap task transitions to status=error, its error field is
populated with the exception message, and its progress keeps the last
recorded simulated value (no regression); the discovery driver, by
contrast, leaves its task at status=running with its error field
untouched, only setting the UI error banner. -/
theorem driver_failure_transitions (m : AppModel) (ticks : Nat) (msg query : String)
    (hp : m.profileLoaded = true)
    (hr : (m.tasks.get .roadmap).status ≠ .running)
    (hq : query ≠ "") :
    ((runRoadmapGeneration m ticks (Except.error msg)).tasks.get .roadmap).status = .error
    ∧ ((runRoadmapGeneration m ticks (Except.error msg)).tasks.get .roadmap).error
        = some msg
    ∧ ((runRoadmapGeneration m ticks (Except.error msg)).tasks.get .roadmap).progress
        = [5, 15, 30, 50, 75, 90].getD (min ticks 5) 0
    ∧ ((handleGlobalCommand m { action := "search_jobs", goal := some query }
          0 (Except.ok "") (Except.error msg) (Except.ok "")).tasks.get .discovery).status
        = .running
    ∧ ((handleGlobalCommand m { action := "search_jobs", goal := some query }
          0 (Except.ok "") (Except.error msg) (Except.ok "")).tasks.get .discovery).error
        = (m.tasks.get .discovery).error := by
  have hguard : ¬ (m.profileLoaded = false ∨ (m.tasks.get .roadmap).status = .running) := by
    simp [hp, hr]
  have hprog : (((updateTask m.tasks .roadmap
      ({ status := some .running, progress := some 5,
         message := some "Initiating Neural Scan..." })) : Tasks).get .roadmap).progress
      = 5 := by
    simp [updateTask, Tasks.get, mergeTask]
  have hsearch := handleGlobalCommand_searchJobs_failure m query msg hp hq
  refine ⟨?_, ?_, ?_, hsearch.1, hsearch.2.1⟩
  · unfold runRoadmapGeneration
    rw [if_neg hguard]
    simp [updateTask, Tasks.get, mergeTask]
  · unfold runRoadmapGeneration
    rw [if_neg hguard]
    simp [updateTask, Tasks.get, mergeTask]
  · unfold runRoadmapGeneration
    rw [if_neg hguard]
    have h := applyTicks_progress (updateTask m.tasks .roadmap
      ({ status := some .running, progress := some 5,
         message := some "Initiating Neural Scan..." })) ticks hprog
    simpa [updateTask, Tasks.get, mergeTask] using h

theorem driver_failure_transitions_witness :
    profileApp.profileLoaded = true
    ∧ (profileApp.tasks.get .roadmap).status ≠ .running
    ∧ ("go" : String) ≠ ""
    ∧ ((runRoadmapGeneration profileApp 2 (Except.error "boom")).tasks.get
        .roadmap).status = .error :=
  ⟨rfl, by decide, by decide,
   (driver_failure_transitions profileApp 2 "boom" "go" rfl (by decide) (by decide)).1⟩

/-- C9 (counterexample): the part_005 implementation of interpretCommand
converts a remote failure to a blocked result that carries no reason at
all, contradicting that the blocked variant always carries a non-empty
reason. -/
theorem interpretCommand_failure_no_reason :
    (Part005.interpretCommand (fun _ => none) RemoteOutcome.failure).action = "blocked"
    ∧ (Part005.interpretCommand (fun _ => none) RemoteOutcome.failure).reason = none :=
  ⟨rfl, rfl⟩

/-- C9 (amended): both implementations of interpretCommand are total (they
return exactly one CommandResult value for every remote outcome, never
propagating a throw) and convert every internal failure — thrown remote
call, absent/empty response text, or unparsable text — to the blocked
action; the services/gemini.ts catch path attaches the non-empty reason
"Failed to connect to Command Center.", while its empty-text fallback and
the part_005 implementation return blocked with no reason field. -/
theorem interpretCommand_total_blocked (parse : String → Option CommandResult) :
    GeminiTs.interpretCommand parse RemoteOutcome.failure
        = { action := "blocked", reason := some "Failed to connect to Command Center." }
    ∧ Part005.interpretCommand parse RemoteOutcome.failure = { action := "blocked" }
    ∧ GeminiTs.interpretCommand parse (RemoteOutcome.success none) = { action := "blocked" }
    ∧ Part005.interpretCommand parse (RemoteOutcome.success none) = { action := "blocked" }
    ∧ (∀ txt, parse txt = none →
        GeminiTs.interpretCommand parse (RemoteOutcome.success (some txt))
            = { action := "blocked", reason := some "Failed to connect to Command Center." }
        ∧ Part005.interpretCommand parse (RemoteOutcome.success (some txt))
            = { action := "blocked" })
    ∧ (∀ txt r, parse txt = some r →
        GeminiTs.interpretCommand parse (RemoteOutcome.success (some txt)) = r
        ∧ Part005.interpretCommand parse (RemoteOutcome.success (some txt)) = r) := by
  refine ⟨rfl, rfl, rfl, rfl, ?_, ?_⟩
  · intro txt htxt
    constructor
    · simp [GeminiTs.interpretCommand, htxt]
    · simp [Part005.interpretCommand, Part005.safeParseJson, htxt]
  · intro txt r htxt
    constructor
    · simp [GeminiTs.interpretCommand, htxt]
    · simp [Part005.interpretCommand, Part005.safeParseJson, htxt]

theorem interpretCommand_total_blocked_witness :
    ((fun _ => none : String → Option CommandResult) "gibberish" = none)
    ∧ GeminiTs.interpretCommand (fun _ => none) (RemoteOutcome.success (some "gibberish"))
        = { action := "blocked", reason := some "Failed to connect to Command Center." } :=
  ⟨rfl,
   ((interpretCommand_total_blocked (fun _ => none)).2.2.2.2.1 "gibberish" rfl).1⟩

/-- C10 (counterexample): a byte array of odd length (here three bytes,
one channel, so the length is not a multiple of 2 x channels) does not get
silently truncated: constructing the Int16Array view over its buffer
throws a RangeError that reaches the caller of decodeAudioData. -/
theorem decodeAudioData_odd_length_throws :
    decodeAudioData [0, 0, 0] 24000 1
      = Except.error "RangeError: byte length of Int16Array should be a multiple of 2" :=
  rfl

/-- C10 (amended): for byte arrays of even length, decodeAudioData never
errors: it returns a buffer holding exactly floor(samples / channels) whole
frames, silently truncating a trailing partial frame (frameCount x channels
covers at most the available samples, and one more frame would exceed
them); for odd byte lengths the Int16Array construction throws. -/
theorem decodeAudioData_even_truncates (data : List Nat) (rate ch : Nat)
    (h2 : data.length % 2 = 0) (hch : 0 < ch) :
    ∃ buf, decodeAudioData data rate ch = Except.ok buf
      ∧ buf.numChannels = ch
      ∧ buf.frameCount = data.length / 2 / ch
      ∧ buf.frameCount * ch ≤ data.length / 2
      ∧ data.length / 2 < (buf.frameCount + 1) * ch
      ∧ buf.channelData.length = ch := by
  refine ⟨_, decodeAudioData_even_eq data rate ch h2, rfl, rfl, ?_, ?_, by simp⟩
  · exact Nat.div_mul_le_self _ ch
  · have hdm : ch * (data.length / 2 / ch) + data.length / 2 % ch = data.length / 2 :=
      Nat.div_add_mod _ ch
    have hmod : data.length / 2 % ch < ch := Nat.mod_lt _ hch
    calc data.length / 2
        = ch * (data.length / 2 / ch) + data.length / 2 % ch := hdm.symm
      _ < ch * (data.length / 2 / ch) + ch := Nat.add_lt_add_left hmod _
      _ = (data.length / 2 / ch + 1) * ch := by ring

theorem decodeAudioData_even_truncates_witness :
    ∃ buf, decodeAudioData [1, 2, 3, 4] 24000 1 = Except.ok buf
      ∧ buf.numChannels = 1
      ∧ buf.frameCount = 2
      ∧ buf.frameCount * 1 ≤ 2
      ∧ 2 < (buf.frameCount + 1) * 1
      ∧ buf.channelData.length = 1 :=
  decodeAudioData_even_truncates [1, 2, 3, 4] 24000 1 rfl (by decide)

end Autojob
